import Mathlib

/-!
The record filter (WarningProxyModel) and the tab bookkeeping (MainWindow) of
warnings-viewer.

A shallow embedding of `src/warningproxymodel.cpp` and of the tab handling of
`src/mainwindow.cpp`.

* A `QString` is its sequence of characters, a `QSet<QString>` is a finite set.
* The Qt primitives the code calls are either given their documented list
  semantics (`QString::contains`, `QTabWidget::addTab/clear/indexOf/widget`) or
  taken as a parameter (`QString::toLower`, the regular-expression engine behind
  `QRegularExpression`, the file system behind `QFileInfo`).
* Signals are recorded in the state: every `emit` appends to a log, every
  `invalidateFilter()` bumps a counter.
-/

namespace WarningsViewer

/-! ## Strings and sets -/

/-- A `QString`, as the sequence of its characters. -/
abbrev QString := List Char

/-- A `QSet<QString>`. -/
abbrev QStringSet := Finset QString

/-- The method `QString::isEmpty()`. -/
def QString.isEmpty (s : QString) : Bool := s.length == 0

/-- The call `s.contains(t)` of `QString` (case sensitive): `t` occurs in `s` as a run of
consecutive characters. The empty string occurs in every string. -/
def QString.contains (s t : QString) : Bool :=
  s.tails.any fun suffix => t.isPrefixOf suffix

/-- The call `QString(tmpl).arg(a)` for a template whose only place marker is `%1`: every
`%1` of the template is replaced by `a` (the inserted text is not scanned again). -/
def QString.arg : QString → QString → QString
  | '%' :: '1' :: rest, a => a ++ QString.arg rest a
  | c :: rest, a => c :: QString.arg rest a
  | [], _ => []

/-! ## Warning records (warningmodel.h) -/

/-- Modelled from the spec: the `Warning` record of `warningmodel.h` (the header is
not among the sources); the fields are those the spec's data model lists and that
`mainwindow.cpp` and `warningproxymodel.cpp` read. -/
structure Warning where
  m_category : QString
  m_completeText : QString
  m_filename : QString
  m_lineNumber : Nat
  m_columnNumber : Nat
deriving DecidableEq, Repr

/-- A default-constructed `Warning`, which is what `QVariant::value<Warning>()`
returns for an invalid index. -/
instance : Inhabited Warning := ⟨⟨[], [], [], 0, 0⟩⟩

/-- Modelled from the spec: `index(i, 0).data(WarningModel::WarningRole)` of the
source model (`warningmodel.cpp` is not among the sources): the record stored at
row `i`, a default-constructed one when the row does not exist. -/
def warningRole (store : List Warning) (row : Nat) : Warning :=
  store.getD row default

/-- Modelled from the spec: `index(i, 0).data(WarningModel::CategoryRole).toString()`
of the source model (`warningmodel.cpp` is not among the sources): the category
of the record stored at row `i`. -/
def categoryRole (store : List Warning) (row : Nat) : QString :=
  (warningRole store row).m_category

/-! ## The regular-expression engine -/

/-- The engine behind `QRegularExpression`. `spanMatch pattern subject i j` tells
whether the compiled `pattern` matches `subject` on exactly the characters from
position `i` up to position `j`, seen in the context of the whole subject (so that
anchors and look-around can be expressed). A pattern that does not compile matches
no span. -/
structure RegexEngine where
  spanMatch : QString → QString → Nat → Nat → Bool

/-- The call `QRegularExpression(pattern).match(subject).hasMatch()`: a normal match from
offset 0 without anchoring options: the subject is searched for a span the pattern
matches. -/
def RegexEngine.hasMatch (re : RegexEngine) (pattern subject : QString) : Bool :=
  (List.range (subject.length + 1)).any fun i =>
    (List.range (subject.length + 1 - i)).any fun k =>
      re.spanMatch pattern subject i (i + k)

/-- An engine reads `pattern` as literal text when the spans it matches are those
that spell the pattern. -/
def RegexEngine.Literal (re : RegexEngine) (pattern : QString) : Prop :=
  ∀ subject i j, re.spanMatch pattern subject i j = true ↔
    i ≤ j ∧ j ≤ subject.length ∧ (subject.drop i).take (j - i) = pattern

/-! ## WarningProxyModel -/

/-- Signals of `WarningProxyModel` that its own code emits. -/
inductive ProxySignal where
  | availableCategoriesChanged (numAvailableCategories : Nat)
deriving DecidableEq, Repr

/-- The state of a `WarningProxyModel`: its members, its source model (`none`
while `sourceModel()` is null), and what it has done so far: the signals emitted
and the number of `invalidateFilter()` calls. -/
structure WarningProxyModel where
  sourceModel : Option (List Warning)
  m_acceptedCategories : QStringSet
  m_availableCategories : QStringSet
  m_text : QString
  m_availableCategoryFilterRegex : QString
  emitted : List ProxySignal
  invalidations : Nat
deriving DecidableEq

namespace WarningProxyModel

/-- The constructor: every member default-constructed except the allow-pattern,
which is read from the settings; no source model yet. -/
def new (categoryFilterRegexp : QString) : WarningProxyModel :=
  { sourceModel := none
    m_acceptedCategories := ∅
    m_availableCategories := ∅
    m_text := []
    m_availableCategoryFilterRegex := categoryFilterRegexp
    emitted := []
    invalidations := 0 }

/-- The method `WarningProxyModel::filterAcceptsRow(source_row, source_parent)`; `store` is
the content of `sourceModel()`, `parentIsValid` is `source_parent.isValid()`. -/
def filterAcceptsRow (toLower : QString → QString) (p : WarningProxyModel)
    (store : List Warning) (source_row : Nat) (parentIsValid : Bool) : Bool :=
  if parentIsValid then false
  else if p.m_acceptedCategories.card == 0 then false
  else
    let warn := warningRole store source_row
    let category := warn.m_category
    if !(p.m_acceptedCategories.card == 0) && !decide (category ∈ p.m_acceptedCategories) then
      false
    else if !p.m_text.isEmpty && !(toLower warn.m_completeText).contains (toLower p.m_text) then
      false
    else true

/-- The rows the proxy shows for its top-level source rows: `QSortFilterProxyModel`
keeps, in source order, the rows `filterAcceptsRow` accepts (no sorting is set up). -/
def visibleRecords (toLower : QString → QString) (p : WarningProxyModel)
    (store : List Warning) : List Warning :=
  ((List.range store.length).filter fun row =>
      filterAcceptsRow toLower p store row false).map fun row => warningRole store row

/-- The method `WarningProxyModel::setAcceptedCategories`. -/
def setAcceptedCategories (p : WarningProxyModel) (categories : QStringSet) :
    WarningProxyModel :=
  if categories ≠ p.m_acceptedCategories then
    { p with m_acceptedCategories := categories, invalidations := p.invalidations + 1 }
  else p

/-- The method `WarningProxyModel::setText`. -/
def setText (p : WarningProxyModel) (filter : QString) : WarningProxyModel :=
  if filter ≠ p.m_text then
    { p with m_text := filter, invalidations := p.invalidations + 1 }
  else p

/-- The method `WarningProxyModel::isAcceptedCategory`. -/
def isAcceptedCategory (re : RegexEngine) (p : WarningProxyModel) (category : QString) :
    Bool :=
  if p.m_availableCategoryFilterRegex.isEmpty then true
  else re.hasMatch (QString.arg ['%', '1'] p.m_availableCategoryFilterRegex) category

/-- The loop of `calculateAvailableCategories`: rows `0 .. count-1` in order, the
category of each accepted row inserted into the set. -/
def scanCategories (re : RegexEngine) (p : WarningProxyModel) (store : List Warning)
    (count : Nat) : QStringSet :=
  (List.range count).foldl
    (fun acc i =>
      let category := categoryRole store i
      if isAcceptedCategory re p category then insert category acc else acc)
    ∅

/-- The method `WarningProxyModel::calculateAvailableCategories`. -/
def calculateAvailableCategories (re : RegexEngine) (p : WarningProxyModel) :
    WarningProxyModel :=
  match p.sourceModel with
  | none => p
  | some store =>
    let available := scanCategories re p store store.length
    { p with
      m_availableCategories := available
      emitted := p.emitted ++ [ProxySignal.availableCategoriesChanged available.card] }

/-- The method `WarningProxyModel::availableCategories`. -/
def availableCategories (p : WarningProxyModel) : QStringSet :=
  p.m_availableCategories

/-- The method `WarningProxyModel::setSourceModel`. -/
def setSourceModel (re : RegexEngine) (p : WarningProxyModel)
    (model : Option (List Warning)) : WarningProxyModel :=
  calculateAvailableCategories re { p with sourceModel := model }

/-- The method `WarningProxyModel::onSourceModelLoaded`. -/
def onSourceModelLoaded (re : RegexEngine) (p : WarningProxyModel) (success : Bool) :
    WarningProxyModel :=
  if success then calculateAvailableCategories re p else p

/-- The method `WarningProxyModel::setAvailableCategoryFilterRegex`. -/
def setAvailableCategoryFilterRegex (re : RegexEngine) (p : WarningProxyModel)
    (regex : QString) : WarningProxyModel :=
  if regex ≠ p.m_availableCategoryFilterRegex then
    calculateAvailableCategories re { p with m_availableCategoryFilterRegex := regex }
  else p

end WarningProxyModel

/-! ## MainWindow: the tabs -/

/-- What a `QFileInfo` built on a path reports. -/
structure QFileInfo where
  exists_ : Bool
  isFile : Bool
deriving DecidableEq, Repr

/-- What lies outside the main window: the file system queried through
`QFileInfo`, and the content of each log as `WarningModel` holds it once the file
is loaded (no record when loading fails). -/
structure World where
  finfo : QString → QFileInfo
  loadLog : QString → List Warning

/-- A `Tab` object. `ptr` is its address: the code compares tabs as pointers. -/
structure Tab where
  ptr : Nat
  m_filename : QString
  model : List Warning
  proxyModel : WarningProxyModel
deriving DecidableEq

/-- The method `Tab::filename()`. -/
def Tab.filename (tab : Tab) : QString := tab.m_filename

/-- Modelled from the spec: the constructor `Tab(filename, settings)` (`tab.cpp` is
not among the sources): the tab owns one Warning Store loaded from `filename` and
one Record Filter Engine created with the settings' allow-pattern and reading that
store. `ptr` is the address `new` returns. -/
def Tab.new (re : RegexEngine) (world : World) (ptr : Nat) (filename : QString)
    (categoryFilterRegexp : QString) : Tab :=
  { ptr := ptr
    m_filename := filename
    model := world.loadLog filename
    proxyModel :=
      (WarningProxyModel.new categoryFilterRegexp).setSourceModel re
        (some (world.loadLog filename)) }

/-- The part of a `MainWindow` the tab handling reads and writes: the tab list
`m_tabs`, the pages of `ui->tabWidget` in display order, the allow-pattern of
`m_settings`, and the next address `new` hands out (addresses are not reused). -/
structure MainWindow where
  m_tabs : List Tab
  tabWidget : List Tab
  categoryFilterRegexp : QString
  nextPtr : Nat
deriving DecidableEq

namespace MainWindow

/-- The window right after construction: no tab, no page. -/
def initial (categoryFilterRegexp : QString) : MainWindow :=
  { m_tabs := [], tabWidget := [], categoryFilterRegexp := categoryFilterRegexp, nextPtr := 0 }

/-- The method `MainWindow::tabForFilename`: the first tab of `m_tabs` with that filename,
`none` for `nullptr`. -/
def tabForFilename (w : MainWindow) (filename : QString) : Option Tab :=
  w.m_tabs.find? fun tab => tab.filename == filename

/-- The test `ui->tabWidget->indexOf(tab) != -1`: the widget at that address is one of the
pages; never so for `nullptr`. -/
def isPage (w : MainWindow) (tab : Option Tab) : Bool :=
  match tab with
  | none => false
  | some t => w.tabWidget.any fun page => page.ptr == t.ptr

/-- The method `MainWindow::openLog`. The two `connect` calls only wire the proxy to
`updateCategoryView` and `updateStatusBar`, which touch neither `m_tabs` nor the
pages, and are left out. -/
def openLog (re : RegexEngine) (world : World) (w : MainWindow) (filename : QString) :
    MainWindow :=
  let finfo := world.finfo filename
  if !finfo.exists_ || !finfo.isFile then w
  else
    let tab := w.tabForFilename filename
    let alreadyExist := w.isPage tab
    if !alreadyExist then
      let tab := Tab.new re world w.nextPtr filename w.categoryFilterRegexp
      let w1 := { w with m_tabs := w.m_tabs ++ [tab], nextPtr := w.nextPtr + 1 }
      if tab.model.length > 0 then
        if !(tab.proxyModel.availableCategories.card == 0) then
          { w1 with tabWidget := w1.tabWidget ++ [tab] }
        else w1
      else w1
    else w

/-- The method `MainWindow::closeTab`. `none` when `Q_ASSERT(it != m_tabs.end())` fails: no
page at `index`, or the page is not in `m_tabs`. Deleting the tab also takes it out
of the tab widget. -/
def closeTab (w : MainWindow) (index : Nat) : Option MainWindow :=
  match w.tabWidget.get? index with
  | none => none
  | some tab =>
    match w.m_tabs.findIdx? (fun t => t.ptr == tab.ptr) with
    | none => none
    | some it =>
      some { w with
        m_tabs := w.m_tabs.eraseIdx it
        tabWidget := w.tabWidget.filter fun page => !(page.ptr == tab.ptr) }

/-- The method `MainWindow::reloadTabs`: the pages are removed (not deleted), then `openLog`
runs on the filename of every tab that was in `m_tabs` when the loop started. -/
def reloadTabs (re : RegexEngine) (world : World) (w : MainWindow) : MainWindow :=
  w.m_tabs.foldl (fun acc tab => openLog re world acc tab.filename)
    { w with tabWidget := [] }

end MainWindow

/-! ## Concrete data for the scenarios -/

/-- An engine that knows literal patterns only: a pattern matches the spans that
spell it. -/
def literalEngine : RegexEngine :=
  { spanMatch := fun pattern subject i j =>
      decide (i ≤ j) && decide (j ≤ subject.length) &&
        decide ((subject.drop i).take (j - i) = pattern) }

/-- ASCII lower-casing, character by character. -/
def asciiLower (s : QString) : QString := s.map Char.toLower

/-- Record 1 of the spec's scenario. -/
def record1 : Warning :=
  { m_category := "-Wunused-variable".toList
    m_completeText := "unused variable x [-Wunused-variable]\nnote: declared here".toList
    m_filename := "/a/b.c".toList
    m_lineNumber := 10
    m_columnNumber := 3 }

/-- Record 2 of the spec's scenario. -/
def record2 : Warning :=
  { m_category := "-Wreturn-type".toList
    m_completeText := "missing return [-Wreturn-type]".toList
    m_filename := "/a/b.c".toList
    m_lineNumber := 20
    m_columnNumber := 0 }

/-- The two-record store of the spec's scenario. -/
def scenarioStore : List Warning := [record1, record2]

/-- Filter state of the witnesses: one accepted category, and a text in upper case. -/
def unusedNote : WarningProxyModel :=
  { WarningProxyModel.new [] with
    m_acceptedCategories := {"-Wunused-variable".toList}
    m_text := "NOTE: Declared".toList }

/-- A world with one log, `a.log`, holding the two scenario records. -/
def scenarioWorld : World :=
  { finfo := fun f => if f = "a.log".toList then ⟨true, true⟩ else ⟨false, false⟩
    loadLog := fun f => if f = "a.log".toList then scenarioStore else [] }

/-- The same world after `a.log` has been removed. -/
def goneWorld : World :=
  { finfo := fun _ => ⟨false, false⟩
    loadLog := fun _ => [] }

end WarningsViewer


/-! ## Auxiliary facts about the Qt primitives -/

namespace WarningsViewer
open WarningProxyModel MainWindow

theorem QString.contains_iff (s t : QString) : s.contains t = true ↔ t <:+: s := by
  unfold QString.contains
  rw [List.any_eq_true, List.infix_iff_prefix_suffix]
  constructor
  · rintro ⟨u, hu, hp⟩
    exact ⟨u, List.isPrefixOf_iff_prefix.mp hp, (List.mem_tails _ _).mp hu⟩
  · rintro ⟨u, hp, hu⟩
    exact ⟨u, (List.mem_tails _ _).mpr hu, List.isPrefixOf_iff_prefix.mpr hp⟩

theorem QString.isEmpty_iff (s : QString) : s.isEmpty = true ↔ s = [] := by
  cases s <;> simp [QString.isEmpty]

theorem QString.arg_marker (a : QString) : QString.arg ['%', '1'] a = a := by
  simp [QString.arg]

theorem warningRole_of_lt (store : List Warning) (row : Nat) (h : row < store.length) :
    warningRole store row = store[row] := by
  simp [warningRole, List.getD_eq_getElem?_getD, List.getElem?_eq_getElem h]

theorem filterAcceptsRow_eq (toLower : QString → QString) (p : WarningProxyModel)
    (store : List Warning) (row : Nat) :
    filterAcceptsRow toLower p store row false = true ↔
      (warningRole store row).m_category ∈ p.m_acceptedCategories ∧
        (p.m_text = [] ∨ toLower p.m_text <:+: toLower (warningRole store row).m_completeText) := by
  unfold filterAcceptsRow
  by_cases hmem : (warningRole store row).m_category ∈ p.m_acceptedCategories
  · have hcard : p.m_acceptedCategories.card ≠ 0 := Finset.card_ne_zero_of_mem hmem
    by_cases htext : p.m_text = []
    · simp [hmem, hcard, htext, QString.isEmpty]
    · have hE : p.m_text.isEmpty = false := by
        rw [Bool.eq_false_iff, Ne, QString.isEmpty_iff]; exact htext
      by_cases hc : (toLower (warningRole store row).m_completeText).contains (toLower p.m_text) = true
      · have := (QString.contains_iff _ _).mp hc
        simp [hmem, hcard, htext, hE, hc, this]
      · have hn : ¬ toLower p.m_text <:+: toLower (warningRole store row).m_completeText :=
          fun h => hc ((QString.contains_iff _ _).mpr h)
        simp [hmem, hcard, htext, hE, hc, hn]
  · by_cases hcard : p.m_acceptedCategories.card = 0
    · simp [hmem, hcard]
    · simp [hmem, hcard]

theorem range_filter_map_getD {α : Type} (d : α) (f : α → Bool) (l : List α) :
    ((List.range l.length).filter fun i => f (l.getD i d)).map (fun i => l.getD i d)
      = l.filter f := by
  induction l with
  | nil => simp
  | cons a l ih =>
    rw [List.length_cons, List.range_succ_eq_map, List.filter_cons]
    simp only [List.getD_cons_zero, List.filter_map]
    have h2 : List.map (fun i => (a :: l).getD i d)
        (List.map Nat.succ
          (List.filter ((fun i => f ((a :: l).getD i d)) ∘ Nat.succ) (List.range l.length)))
        = l.filter f := by
      rw [List.map_map, ← ih]; rfl
    by_cases hf : f a = true
    · simp only [hf, if_true, List.map_cons, List.getD_cons_zero, List.filter_cons]
      rw [h2]
    · simp only [hf, List.filter_cons, Bool.false_eq_true, if_false]
      rw [h2]

theorem visibleRecords_eq_filter (toLower : QString → QString) (p : WarningProxyModel)
    (store : List Warning) :
    visibleRecords toLower p store
      = store.filter fun w => filterAcceptsRow toLower p [w] 0 false := by
  unfold visibleRecords
  rw [← range_filter_map_getD default (fun w => filterAcceptsRow toLower p [w] 0 false) store]
  simp only [warningRole]
  congr 1

theorem RegexEngine.hasMatch_iff (re : RegexEngine) (pattern subject : QString) :
    re.hasMatch pattern subject = true ↔
      ∃ i j, i ≤ j ∧ j ≤ subject.length ∧ re.spanMatch pattern subject i j = true := by
  unfold RegexEngine.hasMatch
  simp only [List.any_eq_true, List.mem_range]
  constructor
  · rintro ⟨i, _, k, hk, hm⟩
    exact ⟨i, i + k, Nat.le_add_right i k, by omega, hm⟩
  · rintro ⟨i, j, hij, hj, hm⟩
    refine ⟨i, by omega, j - i, by omega, ?_⟩
    rw [Nat.add_sub_cancel' hij]
    exact hm

theorem infix_iff_span (pattern subject : QString) :
    pattern <:+: subject ↔
      ∃ i j, i ≤ j ∧ j ≤ subject.length ∧ (subject.drop i).take (j - i) = pattern := by
  constructor
  · rintro ⟨s, t, rfl⟩
    refine ⟨s.length, s.length + pattern.length, Nat.le_add_right _ _, ?_, ?_⟩
    · simp
    · simp [List.append_assoc]
  · rintro ⟨i, j, _, _, h⟩
    rw [← h]
    exact (List.take_prefix _ _).isInfix.trans (List.drop_suffix _ _).isInfix

theorem mem_scanCategories (re : RegexEngine) (p : WarningProxyModel) (store : List Warning)
    (count : Nat) (c : QString) :
    c ∈ scanCategories re p store count ↔
      ∃ i, i < count ∧ categoryRole store i = c ∧ isAcceptedCategory re p c = true := by
  unfold scanCategories
  induction count with
  | zero => simp
  | succ n ih =>
    rw [List.range_succ, List.foldl_append]
    simp only [List.foldl_cons, List.foldl_nil]
    by_cases hacc : isAcceptedCategory re p (categoryRole store n) = true
    · simp only [hacc, if_true, Finset.mem_insert, ih]
      constructor
      · rintro (rfl | ⟨i, hi, h1, h2⟩)
        · exact ⟨n, Nat.lt_succ_self n, rfl, hacc⟩
        · exact ⟨i, Nat.lt_succ_of_lt hi, h1, h2⟩
      · rintro ⟨i, hi, h1, h2⟩
        rcases Nat.lt_succ_iff_lt_or_eq.mp hi with h | h
        · exact Or.inr ⟨i, h, h1, h2⟩
        · subst h; exact Or.inl h1.symm
    · simp only [hacc, Bool.false_eq_true, if_false, ih]
      constructor
      · rintro ⟨i, hi, h1, h2⟩
        exact ⟨i, Nat.lt_succ_of_lt hi, h1, h2⟩
      · rintro ⟨i, hi, h1, h2⟩
        rcases Nat.lt_succ_iff_lt_or_eq.mp hi with h | h
        · exact ⟨i, h, h1, h2⟩
        · subst h; rw [h1] at hacc; exact absurd h2 hacc

theorem scanCategories_eq (re : RegexEngine) (p : WarningProxyModel) (store : List Warning) :
    scanCategories re p store store.length
      = (store.map fun w => w.m_category).toFinset.filter
          fun c => isAcceptedCategory re p c = true := by
  ext c
  rw [mem_scanCategories, Finset.mem_filter, List.mem_toFinset, List.mem_map]
  constructor
  · rintro ⟨i, hi, h1, h2⟩
    refine ⟨⟨store[i], List.getElem_mem _, ?_⟩, h2⟩
    rw [← h1, categoryRole, warningRole_of_lt store i hi]
  · rintro ⟨⟨w, hw, rfl⟩, h2⟩
    obtain ⟨i, hi, rfl⟩ := List.getElem_of_mem hw
    exact ⟨i, hi, by rw [categoryRole, warningRole_of_lt store i hi], h2⟩

/-! ## The record filter -/

/-- C1: for a top-level row of the store, `filterAcceptsRow` answers true exactly
when the accepted set is non-empty and holds the record's category, and the text is
empty or the lower-cased text is a run of consecutive characters of the lower-cased
complete text of the record. -/
theorem filterAcceptsRow_iff (toLower : QString → QString) (p : WarningProxyModel)
    (store : List Warning) (row : Nat) (h : row < store.length) :
    filterAcceptsRow toLower p store row false = true ↔
      (p.m_acceptedCategories.Nonempty ∧ store[row].m_category ∈ p.m_acceptedCategories) ∧
        (p.m_text = [] ∨ toLower p.m_text <:+: toLower store[row].m_completeText) := by
  rw [filterAcceptsRow_eq, warningRole_of_lt store row h]
  constructor
  · rintro ⟨hm, ht⟩
    exact ⟨⟨⟨_, hm⟩, hm⟩, ht⟩
  · rintro ⟨⟨_, hm⟩, ht⟩
    exact ⟨hm, ht⟩

/-- C1 at row 0 of the scenario store, with the text `NOTE: Declared`: the row is
accepted, through the right-hand side of the equivalence. -/
theorem filterAcceptsRow_iff_witness :
    filterAcceptsRow asciiLower unusedNote scenarioStore 0 false = true :=
  (filterAcceptsRow_iff asciiLower unusedNote scenarioStore 0 (by decide)).mpr (by decide)

/-- C2: with an empty accepted set `filterAcceptsRow` rejects every row, whatever
the text, and no record is visible. -/
theorem empty_selection_shows_nothing (toLower : QString → QString)
    (p : WarningProxyModel) (store : List Warning) (h : p.m_acceptedCategories = ∅) :
    (∀ row parentIsValid, filterAcceptsRow toLower p store row parentIsValid = false) ∧
      visibleRecords toLower p store = [] := by
  have hrow : ∀ (st : List Warning) row parentIsValid,
      filterAcceptsRow toLower p st row parentIsValid = false := by
    intro st row parentIsValid
    simp [filterAcceptsRow, h]
  refine ⟨hrow store, ?_⟩
  rw [visibleRecords_eq_filter]
  simp [hrow]

/-- C2 on the scenario store with a text that occurs in record 1: still nothing is
visible. -/
theorem empty_selection_shows_nothing_witness :
    (∀ row parentIsValid,
        filterAcceptsRow asciiLower { unusedNote with m_acceptedCategories := ∅ }
          scenarioStore row parentIsValid = false) ∧
      visibleRecords asciiLower { unusedNote with m_acceptedCategories := ∅ } scenarioStore = [] :=
  empty_selection_shows_nothing asciiLower { unusedNote with m_acceptedCategories := ∅ }
    scenarioStore rfl

/-- C3: with a non-empty accepted set and an empty text, the visible records are
the store records whose category is in the accepted set, in store order, and
filtering the visible records again with the same filter state changes nothing. -/
theorem visibleRecords_category_only (toLower : QString → QString)
    (p : WarningProxyModel) (store : List Warning)
    (hne : p.m_acceptedCategories.Nonempty) (htext : p.m_text = []) :
    visibleRecords toLower p store
        = store.filter (fun w => decide (w.m_category ∈ p.m_acceptedCategories)) ∧
      visibleRecords toLower p (visibleRecords toLower p store)
        = visibleRecords toLower p store := by
  have hacc : ∀ w : Warning, filterAcceptsRow toLower p [w] 0 false
      = decide (w.m_category ∈ p.m_acceptedCategories) := by
    intro w
    have h := filterAcceptsRow_eq toLower p [w] 0
    simp only [htext, true_or, and_true] at h
    have hw : warningRole [w] 0 = w := rfl
    rw [hw] at h
    rw [Bool.eq_iff_iff, h, decide_eq_true_iff]
  have hfun : (fun w => filterAcceptsRow toLower p [w] 0 false)
      = fun w : Warning => decide (w.m_category ∈ p.m_acceptedCategories) := funext hacc
  have _ := hne
  refine ⟨?_, ?_⟩
  · rw [visibleRecords_eq_filter, hfun]
  · rw [visibleRecords_eq_filter, visibleRecords_eq_filter, List.filter_filter]
    simp

/-- C3 on the scenario store: accepting `-Wunused-variable` with an empty text
shows exactly record 1. -/
theorem visibleRecords_category_only_witness :
    visibleRecords asciiLower { unusedNote with m_text := [] } scenarioStore = [record1] :=
  (visibleRecords_category_only asciiLower { unusedNote with m_text := [] } scenarioStore
    ⟨"-Wunused-variable".toList, by decide⟩ rfl).1.trans (by decide)

theorem calculateAvailableCategories_some (re : RegexEngine) (p : WarningProxyModel)
    (store : List Warning) (h : p.sourceModel = some store) :
    calculateAvailableCategories re p =
      { p with
        m_availableCategories := scanCategories re p store store.length
        emitted := p.emitted ++
          [ProxySignal.availableCategoriesChanged (scanCategories re p store store.length).card] } := by
  unfold calculateAvailableCategories
  rw [h]

theorem isAcceptedCategory_congr (re : RegexEngine) (p q : WarningProxyModel)
    (h : p.m_availableCategoryFilterRegex = q.m_availableCategoryFilterRegex) (c : QString) :
    isAcceptedCategory re p c = isAcceptedCategory re q c := by
  unfold isAcceptedCategory
  rw [h]

/-! ## The available categories -/

/-- C4: after `calculateAvailableCategories` on a proxy whose source model is
`store`, `availableCategories()` is a subset of the categories occurring in the
store; with an empty allow-pattern `isAcceptedCategory` is true of every category
and `availableCategories()` is the full set of store categories. -/
theorem availableCategories_subset (re : RegexEngine) (p : WarningProxyModel)
    (store : List Warning) (h : p.sourceModel = some store) :
    (calculateAvailableCategories re p).availableCategories
        ⊆ (store.map fun w => w.m_category).toFinset ∧
      (p.m_availableCategoryFilterRegex = [] →
        (∀ c, isAcceptedCategory re p c = true) ∧
          (calculateAvailableCategories re p).availableCategories
            = (store.map fun w => w.m_category).toFinset) := by
  rw [calculateAvailableCategories_some re p store h]
  simp only [availableCategories, scanCategories_eq]
  refine ⟨Finset.filter_subset _ _, fun hre => ?_⟩
  have hall : ∀ c, isAcceptedCategory re p c = true := by
    intro c
    simp [isAcceptedCategory, hre, QString.isEmpty]
  exact ⟨hall, Finset.filter_true_of_mem fun c _ => hall c⟩

/-- C5: a setter called with the current value of its field returns the state it
was given: the accepted set, the text, the allow-pattern and the available
categories are those of before, the `invalidateFilter()` counter has not moved and
the log of emitted signals has not grown. -/
theorem setters_noop (re : RegexEngine) (p : WarningProxyModel) :
    setAcceptedCategories p p.m_acceptedCategories = p ∧
      setText p p.m_text = p ∧
      setAvailableCategoryFilterRegex re p p.m_availableCategoryFilterRegex = p := by
  simp [setAcceptedCategories, setText, setAvailableCategoryFilterRegex]

/-- C6, as amended: on a proxy that has a source model, setting a pattern
different from the current one stores it, makes `availableCategories()` the set of
store categories that `isAcceptedCategory` accepts under the new pattern, and emits
exactly one `availableCategoriesChanged`, carrying the size of that set. -/
theorem setAvailableCategoryFilterRegex_changed (re : RegexEngine)
    (p : WarningProxyModel) (store : List Warning) (regex : QString)
    (hs : p.sourceModel = some store) (hne : regex ≠ p.m_availableCategoryFilterRegex) :
    (setAvailableCategoryFilterRegex re p regex).m_availableCategoryFilterRegex = regex ∧
      (setAvailableCategoryFilterRegex re p regex).availableCategories
        = (store.map fun w => w.m_category).toFinset.filter
            (fun c => isAcceptedCategory re
              (setAvailableCategoryFilterRegex re p regex) c = true) ∧
      (setAvailableCategoryFilterRegex re p regex).emitted
        = p.emitted ++ [ProxySignal.availableCategoriesChanged
            (setAvailableCategoryFilterRegex re p regex).availableCategories.card] := by
  have hq : setAvailableCategoryFilterRegex re p regex
      = calculateAvailableCategories re { p with m_availableCategoryFilterRegex := regex } := by
    simp [setAvailableCategoryFilterRegex, hne]
  rw [hq, calculateAvailableCategories_some re
    { p with m_availableCategoryFilterRegex := regex } store hs]
  simp only [availableCategories, scanCategories_eq]
  refine ⟨trivial, ?_, trivial⟩
  exact Finset.filter_congr fun c _ =>
    Iff.of_eq (congrArg (fun b => b = true) (isAcceptedCategory_congr re _ _ rfl c))

/-- C6 as stated fails on a proxy that has no source model yet: the pattern is new,
but nothing is emitted. -/
theorem setAvailableCategoryFilterRegex_no_source :
    "return".toList ≠ (WarningProxyModel.new []).m_availableCategoryFilterRegex ∧
      ¬ ∃ n, (setAvailableCategoryFilterRegex literalEngine (WarningProxyModel.new [])
            "return".toList).emitted
          = (WarningProxyModel.new []).emitted ++ [ProxySignal.availableCategoriesChanged n] := by
  refine ⟨by decide, ?_⟩
  rintro ⟨n, hn⟩
  have h0 : (setAvailableCategoryFilterRegex literalEngine (WarningProxyModel.new [])
      "return".toList).emitted = [] := by decide
  rw [h0] at hn
  simp [WarningProxyModel.new] at hn

theorem literalEngine_literal (pattern : QString) : literalEngine.Literal pattern := by
  intro subject i j
  simp [literalEngine, and_assoc]

/-- C9: under a non-empty allow-pattern `isAcceptedCategory` is true exactly when
the pattern matches some span of the category (a search); when the engine reads the
pattern as literal text, that is exactly when the pattern is a run of consecutive
characters of the category. -/
theorem isAcceptedCategory_search (re : RegexEngine) (p : WarningProxyModel)
    (category : QString) (hne : p.m_availableCategoryFilterRegex ≠ []) :
    (isAcceptedCategory re p category = true ↔
        ∃ i j, i ≤ j ∧ j ≤ category.length ∧
          re.spanMatch p.m_availableCategoryFilterRegex category i j = true) ∧
      (re.Literal p.m_availableCategoryFilterRegex →
        (isAcceptedCategory re p category = true ↔
          p.m_availableCategoryFilterRegex <:+: category)) := by
  have hE : p.m_availableCategoryFilterRegex.isEmpty = false := by
    rw [Bool.eq_false_iff, Ne, QString.isEmpty_iff]; exact hne
  have h1 : isAcceptedCategory re p category
      = re.hasMatch p.m_availableCategoryFilterRegex category := by
    simp [isAcceptedCategory, hE, QString.arg_marker]
  refine ⟨by rw [h1, RegexEngine.hasMatch_iff], fun hlit => ?_⟩
  rw [h1, RegexEngine.hasMatch_iff, infix_iff_span]
  constructor
  · rintro ⟨i, j, hm⟩
    exact ⟨i, j, (hlit category i j).mp hm.2.2⟩
  · rintro ⟨i, j, hij, hj, hs⟩
    exact ⟨i, j, hij, hj, (hlit category i j).mpr ⟨hij, hj, hs⟩⟩

/-- C9 on the scenario store with the allow-pattern `return`: `-Wreturn-type` is
accepted because `return` occurs in it, `-Wunused-variable` is not, and
`availableCategories()` is `{-Wreturn-type}`. -/
theorem isAcceptedCategory_search_witness :
    isAcceptedCategory literalEngine (WarningProxyModel.new "return".toList)
        "-Wreturn-type".toList = true ∧
      isAcceptedCategory literalEngine (WarningProxyModel.new "return".toList)
        "-Wunused-variable".toList = false ∧
      ((WarningProxyModel.new "return".toList).setSourceModel literalEngine
        (some scenarioStore)).availableCategories = {"-Wreturn-type".toList} :=
  ⟨((isAcceptedCategory_search literalEngine (WarningProxyModel.new "return".toList)
      "-Wreturn-type".toList (by decide)).2 (literalEngine_literal _)).mpr (by decide),
    by decide, by decide⟩

/-- C4 on the scenario store: with the empty allow-pattern both categories are
available. -/
theorem availableCategories_subset_witness :
    ((WarningProxyModel.new []).setSourceModel literalEngine
        (some scenarioStore)).availableCategories
      = {"-Wunused-variable".toList, "-Wreturn-type".toList} :=
  ((availableCategories_subset literalEngine
      { WarningProxyModel.new [] with sourceModel := some scenarioStore } scenarioStore rfl).2
    rfl).2.trans (by decide)

/-- C6, as amended, on the scenario store: going from the empty pattern to
`return` leaves `-Wreturn-type` as the only available category and emits a second
notification, with count 1. -/
theorem setAvailableCategoryFilterRegex_changed_witness :
    (setAvailableCategoryFilterRegex literalEngine
        ((WarningProxyModel.new []).setSourceModel literalEngine (some scenarioStore))
        "return".toList).emitted
      = [ProxySignal.availableCategoriesChanged 2, ProxySignal.availableCategoriesChanged 1] :=
  (setAvailableCategoryFilterRegex_changed literalEngine
      ((WarningProxyModel.new []).setSourceModel literalEngine (some scenarioStore))
      scenarioStore "return".toList rfl (by decide)).2.2.trans (by decide)

theorem Tab.new_filename (re : RegexEngine) (world : World) (ptr : Nat)
    (filename regexp : QString) : (Tab.new re world ptr filename regexp).filename = filename :=
  rfl

theorem openLog_failed (re : RegexEngine) (world : World) (w : MainWindow)
    (filename : QString)
    (hfail : (world.finfo filename).exists_ = false ∨ (world.finfo filename).isFile = false) :
    openLog re world w filename = w := by
  unfold openLog
  rcases hfail with h | h <;> simp [h]

theorem openLog_cases (re : RegexEngine) (world : World) (w : MainWindow)
    (filename : QString) :
    openLog re world w filename = w ∨
      ((world.finfo filename).exists_ = true ∧ (world.finfo filename).isFile = true ∧
        (openLog re world w filename).m_tabs
          = w.m_tabs ++ [Tab.new re world w.nextPtr filename w.categoryFilterRegexp] ∧
        ((openLog re world w filename).tabWidget = w.tabWidget ∨
          (0 < (Tab.new re world w.nextPtr filename w.categoryFilterRegexp).model.length ∧
            (Tab.new re world w.nextPtr filename
              w.categoryFilterRegexp).proxyModel.availableCategories.Nonempty ∧
            (openLog re world w filename).tabWidget
              = w.tabWidget ++ [Tab.new re world w.nextPtr filename w.categoryFilterRegexp]))) := by
  unfold openLog
  by_cases he : (world.finfo filename).exists_ = true
  · by_cases hf : (world.finfo filename).isFile = true
    · by_cases hp : w.isPage (w.tabForFilename filename) = true
      · left; simp [he, hf, hp]
      · right
        refine ⟨he, hf, ?_⟩
        by_cases hrows : 0 < (Tab.new re world w.nextPtr filename w.categoryFilterRegexp).model.length
        · by_cases hav : (Tab.new re world w.nextPtr filename
              w.categoryFilterRegexp).proxyModel.availableCategories.card = 0
          · simp [he, hf, hp, hrows, hav]
          · have hne : (Tab.new re world w.nextPtr filename
                w.categoryFilterRegexp).proxyModel.availableCategories.Nonempty :=
              Finset.card_pos.mp (Nat.pos_of_ne_zero hav)
            simp [he, hf, hp, hrows, hav, hne]
        · simp [he, hf, hp, hrows]
    · left; simp [hf]
  · left; simp [he]

/-! ## The tabs of the main window -/

/-- C8: `openLog` either leaves the pages of the tab widget as they were, or the file
exists and is a regular file, the freshly loaded model has at least one record, the
new proxy has at least one available category, and the new tab is appended as a
page. -/
theorem openLog_page_only_if (re : RegexEngine) (world : World) (w : MainWindow)
    (filename : QString) :
    (openLog re world w filename).tabWidget = w.tabWidget ∨
      ((world.finfo filename).exists_ = true ∧ (world.finfo filename).isFile = true ∧
        0 < (Tab.new re world w.nextPtr filename w.categoryFilterRegexp).model.length ∧
        (Tab.new re world w.nextPtr filename
          w.categoryFilterRegexp).proxyModel.availableCategories.Nonempty ∧
        (openLog re world w filename).tabWidget
          = w.tabWidget ++ [Tab.new re world w.nextPtr filename w.categoryFilterRegexp]) := by
  rcases openLog_cases re world w filename with h | ⟨he, hf, _, h | ⟨h1, h2, h3⟩⟩
  · left; rw [h]
  · left; exact h
  · right; exact ⟨he, hf, h1, h2, h3⟩

theorem openLog_other_filename (re : RegexEngine) (world : World) (w : MainWindow)
    (filename g : QString)
    (hfail : (world.finfo filename).exists_ = false ∨ (world.finfo filename).isFile = false) :
    (openLog re world w g).m_tabs.filter (fun t => t.filename == filename)
        = w.m_tabs.filter (fun t => t.filename == filename) ∧
      (openLog re world w g).tabWidget.filter (fun t => t.filename == filename)
        = w.tabWidget.filter (fun t => t.filename == filename) := by
  rcases openLog_cases re world w g with h | ⟨he, hf, hm, hw⟩
  · rw [h]; exact ⟨rfl, rfl⟩
  · have hg : g ≠ filename := by
      rintro rfl
      rcases hfail with h | h
      · rw [h] at he; exact Bool.noConfusion he
      · rw [h] at hf; exact Bool.noConfusion hf
    have hnew : ((Tab.new re world w.nextPtr g w.categoryFilterRegexp).filename == filename)
        = false := by
      rw [Tab.new_filename]; simpa using hg
    refine ⟨?_, ?_⟩
    · rw [hm, List.filter_append]; simp [hnew]
    · rcases hw with h | ⟨_, _, h⟩
      · rw [h]
      · rw [h, List.filter_append]; simp [hnew]

theorem foldl_openLog_filename (re : RegexEngine) (world : World) (filename : QString)
    (hfail : (world.finfo filename).exists_ = false ∨ (world.finfo filename).isFile = false)
    (tabs : List Tab) (acc : MainWindow) :
    (tabs.foldl (fun a tab => openLog re world a tab.filename) acc).m_tabs.filter
          (fun t => t.filename == filename)
        = acc.m_tabs.filter (fun t => t.filename == filename) ∧
      (tabs.foldl (fun a tab => openLog re world a tab.filename) acc).tabWidget.filter
          (fun t => t.filename == filename)
        = acc.tabWidget.filter (fun t => t.filename == filename) := by
  induction tabs generalizing acc with
  | nil => exact ⟨rfl, rfl⟩
  | cons tab tabs ih =>
    rw [List.foldl_cons]
    have h1 := ih (openLog re world acc tab.filename)
    have h2 := openLog_other_filename re world acc filename tab.filename hfail
    exact ⟨h1.1.trans h2.1, h1.2.trans h2.2⟩

/-- C7, as amended: when the file does not exist or is not a regular file,
`openLog` returns the window state it was given; `reloadTabs` keeps the tabs of
`m_tabs` with that filename as they were, and afterwards the tab widget shows no
page with that filename. -/
theorem failed_load_keeps_tabs (re : RegexEngine) (world : World) (w : MainWindow)
    (filename : QString)
    (hfail : (world.finfo filename).exists_ = false ∨ (world.finfo filename).isFile = false) :
    openLog re world w filename = w ∧
      (reloadTabs re world w).m_tabs.filter (fun t => t.filename == filename)
        = w.m_tabs.filter (fun t => t.filename == filename) ∧
      (reloadTabs re world w).tabWidget.filter (fun t => t.filename == filename) = [] := by
  refine ⟨openLog_failed re world w filename hfail, ?_, ?_⟩
  · exact (foldl_openLog_filename re world filename hfail w.m_tabs { w with tabWidget := [] }).1
  · exact (foldl_openLog_filename re world filename hfail w.m_tabs { w with tabWidget := [] }).2

/-- C7, as amended, on a window that shows `a.log`, after the file has been removed:
opening it again changes nothing. -/
theorem failed_load_keeps_tabs_witness :
    openLog literalEngine goneWorld
        (openLog literalEngine scenarioWorld (MainWindow.initial []) "a.log".toList)
        "a.log".toList
      = openLog literalEngine scenarioWorld (MainWindow.initial []) "a.log".toList :=
  (failed_load_keeps_tabs literalEngine goneWorld
    (openLog literalEngine scenarioWorld (MainWindow.initial []) "a.log".toList)
    "a.log".toList (Or.inl rfl)).1

/-- C7 as stated fails for `reloadTabs`: a window shows the page of `a.log`, the
file is removed, and after `reloadTabs` the page is no longer in the tab widget. -/
theorem reloadTabs_drops_page :
    (goneWorld.finfo "a.log".toList).exists_ = false ∧
      (openLog literalEngine scenarioWorld (MainWindow.initial [])
          "a.log".toList).tabWidget.map (fun t => (t.ptr, t.filename))
        = [(0, "a.log".toList)] ∧
      (reloadTabs literalEngine goneWorld
          (openLog literalEngine scenarioWorld (MainWindow.initial [])
            "a.log".toList)).tabWidget = [] := by
  decide

/-- C10 fails on the code: open `a.log`, reload the tabs, open `a.log` again. The
tab widget then shows two pages for `a.log`, and `m_tabs` holds three tabs for it. -/
theorem reopen_after_reload_duplicates :
    (openLog literalEngine scenarioWorld
        (reloadTabs literalEngine scenarioWorld
          (openLog literalEngine scenarioWorld (MainWindow.initial []) "a.log".toList))
        "a.log".toList).tabWidget.map (fun t => (t.ptr, t.filename))
      = [(1, "a.log".toList), (2, "a.log".toList)] ∧
    (openLog literalEngine scenarioWorld
        (reloadTabs literalEngine scenarioWorld
          (openLog literalEngine scenarioWorld (MainWindow.initial []) "a.log".toList))
        "a.log".toList).m_tabs.map (fun t => (t.ptr, t.filename))
      = [(0, "a.log".toList), (1, "a.log".toList), (2, "a.log".toList)] := by
  decide

end WarningsViewer
